import Mathlib

/-!
Shallow embedding of the pngme core codec (src/src/chunk_type.rs and
src/src/chunk.rs): a length-prefixed, type-tagged, CRC-32-checksummed
record format modeled on the PNG chunk layout.

Bytes are modeled as `Nat`; theorems that depend on the `u8` range carry
explicit `< 256` hypotheses.  Rust panics (out-of-range slicing and
`unwrap` on a failed `try_into`) are modeled as the explicit outcome
`ParseResult.panic`.  The source reports errors as format strings; each
distinct format string is modeled as a constructor of `ChunkError`
carrying the same data the string interpolates.
-/

namespace Pngme

/-- Embeds `u8::is_ascii_uppercase`: the byte is in the range of A to Z. -/
def isAsciiUppercase (b : Nat) : Bool := 65 ≤ b && b ≤ 90

/-- Embeds `u8::is_ascii_lowercase`: the byte is in the range of a to z. -/
def isAsciiLowercase (b : Nat) : Bool := 97 ≤ b && b ≤ 122

/-- Embeds `u8::is_ascii_alphabetic`. -/
def isAsciiAlphabetic (b : Nat) : Bool := isAsciiUppercase b || isAsciiLowercase b

/-- Embeds `u8::is_ascii`. -/
def isAscii (b : Nat) : Bool := b ≤ 127

/-- Every element of the list is in the `u8` range. -/
def isBytes (l : List Nat) : Bool := l.all (fun b => b < 256)

/-- The error taxonomy.  The source returns `String` errors; each
constructor stands for one of the format strings, carrying its
interpolated data:
`invalidTagByte` for "Invalid byte .. at position ..",
`wrongTagLength` for "Invalid chunk of size ..",
`tooShort` for "Not enough data to build chunk",
`checksumMismatch` for "Invalid crc, expected .., found ..". -/
inductive ChunkError where
  | invalidTagByte (byte : Nat) (position : Nat)
  | wrongTagLength (actual : Nat)
  | tooShort
  | checksumMismatch (expected : Nat) (found : Nat)
deriving DecidableEq

/-- Embeds `ChunkType` of chunk_type.rs: the four raw tag bytes. -/
structure ChunkType where
  raw : List Nat
deriving DecidableEq

/-- Embeds `ChunkType::bytes`. -/
def ChunkType.bytes (t : ChunkType) : List Nat := t.raw

/-- Embeds `ChunkType::is_critical`: byte 0 is ASCII uppercase. -/
def ChunkType.is_critical (t : ChunkType) : Bool := isAsciiUppercase (t.raw.getD 0 0)

/-- Embeds `ChunkType::is_public`: byte 1 is ASCII uppercase. -/
def ChunkType.is_public (t : ChunkType) : Bool := isAsciiUppercase (t.raw.getD 1 0)

/-- Embeds `ChunkType::is_valid`: byte 2 is ASCII uppercase. -/
def ChunkType.is_valid (t : ChunkType) : Bool := isAsciiUppercase (t.raw.getD 2 0)

/-- Embeds `ChunkType::is_safe_to_copy`: byte 3 is ASCII lowercase. -/
def ChunkType.is_safe_to_copy (t : ChunkType) : Bool := isAsciiLowercase (t.raw.getD 3 0)

/-- Embeds `ChunkType::is_reserved_bit_valid`: delegates to `is_valid`. -/
def ChunkType.is_reserved_bit_valid (t : ChunkType) : Bool := t.is_valid

/-- The scanning loop of `TryFrom<[u8; 4]> for ChunkType`: returns the
first byte (paired with its position, counting from `i`) failing
`is_ascii && is_ascii_alphabetic`, or `none` if all bytes pass. -/
def checkBytes : List Nat → Nat → Option (Nat × Nat)
  | [], _ => none
  | b :: rest, i =>
      if !(isAscii b) || !(isAsciiAlphabetic b) then some (b, i)
      else checkBytes rest (i + 1)

/-- Embeds `TryFrom<[u8; 4]> for ChunkType`: reject on the first byte that is
not ASCII alphabetic, reporting the byte and its position; otherwise
store the bytes verbatim. -/
def ChunkType.tryFrom (raw : List Nat) : Except ChunkError ChunkType :=
  match checkBytes raw 0 with
  | some (b, i) => .error (.invalidTagByte b i)
  | none => .ok ⟨raw⟩

/-- Embeds `FromStr for ChunkType`: the input string's bytes must number
exactly 4, then delegate to `tryFrom`. -/
def ChunkType.fromStr (s : List Nat) : Except ChunkError ChunkType :=
  if s.length ≠ 4 then .error (.wrongTagLength s.length)
  else ChunkType.tryFrom (s.take 4)

/-- A `ChunkType` as the Rust type system guarantees it: constructed
only through `tryFrom`, hence four ASCII-alphabetic bytes. -/
def ChunkType.wf (t : ChunkType) : Prop :=
  t.raw.length = 4 ∧ ∀ b ∈ t.raw, isAsciiAlphabetic b = true

instance (t : ChunkType) : Decidable t.wf := by
  unfold ChunkType.wf; infer_instance

/-- The CRC-32 ISO-HDLC polynomial, reflected form (used by the `crc`
crate's `CRC_32_ISO_HDLC`, the PNG and zlib CRC). -/
def CRC32_POLY : Nat := 0xEDB88320

/-- One bit of the reflected CRC-32 feedback loop. -/
def crcRound (c : Nat) : Nat :=
  if c % 2 = 1 then Nat.xor (c / 2) CRC32_POLY else c / 2

/-- Feed one byte into the CRC state. -/
def crcByte (c b : Nat) : Nat := crcRound^[8] (Nat.xor c b)

/-- The free function `crc` of chunk.rs: CRC-32/ISO-HDLC over a byte
sequence, with initial state and final xor 0xFFFFFFFF. -/
def crc (bytes : List Nat) : Nat :=
  Nat.xor (bytes.foldl crcByte 0xFFFFFFFF) 0xFFFFFFFF

/-- The `Chunk` struct of chunk.rs. -/
structure Chunk where
  data_size : Nat
  chunk_type : ChunkType
  chunk_data : List Nat
  crc : Nat
deriving DecidableEq

/-- Outcome of `Chunk::try_from`: a chunk, a typed error, or a Rust
panic (out-of-range slice, or `unwrap` on a failed `try_into`). -/
inductive ParseResult where
  | ok (c : Chunk)
  | err (e : ChunkError)
  | panic
deriving DecidableEq

/-- Embeds `u32::from_be_bytes` on four bytes. -/
def u32be (b0 b1 b2 b3 : Nat) : Nat :=
  ((b0 * 256 + b1) * 256 + b2) * 256 + b3

/-- The big-endian u32 read from the first four entries of a buffer. -/
def u32beOf (data : List Nat) : Nat :=
  u32be (data.getD 0 0) (data.getD 1 0) (data.getD 2 0) (data.getD 3 0)

/-- Embeds `TryFrom<&[u8]> for Chunk`, line by line:
fewer than 8 bytes errors ("Not enough data to build chunk");
`data_size` is the big-endian u32 of bytes 0..4;
the tag is `ChunkType::try_from` of bytes 4..8, errors propagated;
`data[8..8+data_size]` panics when the buffer is too short;
the stored crc is `data[(8+data_size)..].try_into().unwrap()`, a panic
unless exactly 4 bytes remain; a computed-vs-stored mismatch errors
("Invalid crc, expected .., found .."). -/
def Chunk.tryFrom (data : List Nat) : ParseResult :=
  if data.length < 8 then .err .tooShort
  else
    let data_size := u32beOf data
    match ChunkType.tryFrom ((data.drop 4).take 4) with
    | .error e => .err e
    | .ok chunk_type =>
      if data.length < 8 + data_size then .panic
      else
        let chunk_data := (data.drop 8).take data_size
        let valid_crc := Pngme.crc (chunk_type.bytes ++ chunk_data)
        let rest := data.drop (8 + data_size)
        if rest.length ≠ 4 then .panic
        else
          let found := u32beOf rest
          if found ≠ valid_crc then .err (.checksumMismatch valid_crc found)
          else .ok ⟨data_size, chunk_type, chunk_data, found⟩

/-- Embeds `Chunk::new`: stores the tag and payload verbatim, sets
`data_size = data.len() as u32` (a `usize` to `u32` cast, hence the
reduction modulo two to the 32), and computes the crc over the tag
bytes followed by the payload. -/
def Chunk.new (chunk_type : ChunkType) (data : List Nat) : Chunk :=
  { chunk_type := chunk_type
    data_size := data.length % 2 ^ 32
    chunk_data := data
    crc := Pngme.crc (chunk_type.bytes ++ data) }

/-- Embeds `Chunk::length`. -/
def Chunk.length (c : Chunk) : Nat := c.data_size

/-- Big-endian byte decomposition of a u32 value. -/
def u32beBytes (n : Nat) : List Nat :=
  [n / 2 ^ 24 % 256, n / 2 ^ 16 % 256, n / 2 ^ 8 % 256, n % 256]

/-- Modelled from the spec: `serialize` is absent from src; the spec
defines it as emitting the length (4 bytes big-endian), the tag bytes,
the payload, and the crc (4 bytes big-endian). -/
def Chunk.serialize (c : Chunk) : List Nat :=
  u32beBytes c.data_size ++ c.chunk_type.bytes ++ c.chunk_data ++ u32beBytes c.crc

/-! Basic facts about the embedded definitions. -/

lemma isAscii_of_alpha {b : Nat} (h : isAsciiAlphabetic b = true) : isAscii b = true := by
  simp [isAsciiAlphabetic, isAsciiUppercase, isAsciiLowercase] at h
  simp [isAscii]
  omega

lemma checkBytes_eq_none {l : List Nat} (h : ∀ b ∈ l, isAsciiAlphabetic b = true) :
    ∀ i, checkBytes l i = none := by
  induction l with
  | nil => intro i; rfl
  | cons b rest ih =>
      intro i
      have hb : isAsciiAlphabetic b = true := h b (List.mem_cons_self b rest)
      have ha : isAscii b = true := isAscii_of_alpha hb
      simp [checkBytes, hb, ha]
      exact ih (fun x hx => h x (List.mem_cons_of_mem b hx)) (i + 1)

lemma checkBytes_none_mem {l : List Nat} :
    ∀ i, checkBytes l i = none → ∀ b ∈ l, isAsciiAlphabetic b = true := by
  induction l with
  | nil => intro i _ b hb; cases hb
  | cons x rest ih =>
      intro i h b hb
      by_cases hx : (!(isAscii x) || !(isAsciiAlphabetic x)) = true
      · simp [checkBytes, hx] at h
      · simp only [checkBytes, hx, if_false, Bool.not_eq_true] at h
        simp only [Bool.or_eq_true, Bool.not_eq_true'] at hx
        push_neg at hx
        rcases List.mem_cons.mp hb with rfl | hmem
        · have := hx.2
          simpa using this
        · exact ih (i + 1) h b hmem

lemma chunkType_tryFrom_eq_ok {raw : List Nat}
    (h : ∀ b ∈ raw, isAsciiAlphabetic b = true) :
    ChunkType.tryFrom raw = .ok ⟨raw⟩ := by
  unfold ChunkType.tryFrom
  rw [checkBytes_eq_none h 0]

lemma chunkType_tryFrom_ok_inv {raw : List Nat} {t : ChunkType}
    (h : ChunkType.tryFrom raw = .ok t) :
    t.raw = raw ∧ ∀ b ∈ raw, isAsciiAlphabetic b = true := by
  unfold ChunkType.tryFrom at h
  cases hcb : checkBytes raw 0 with
  | some p => rw [hcb] at h; cases h
  | none =>
      rw [hcb] at h
      cases h
      exact ⟨rfl, checkBytes_none_mem 0 hcb⟩

lemma crcRound_lt {c : Nat} (h : c < 2 ^ 32) : crcRound c < 2 ^ 32 := by
  unfold crcRound
  split
  · exact Nat.xor_lt_two_pow (by omega) (by norm_num [CRC32_POLY])
  · omega

lemma crcRound_iter_lt (n : Nat) {c : Nat} (h : c < 2 ^ 32) :
    crcRound^[n] c < 2 ^ 32 := by
  induction n generalizing c with
  | zero => simpa using h
  | succ k ih =>
      rw [Function.iterate_succ_apply]
      exact ih (crcRound_lt h)

lemma crcByte_lt {c b : Nat} (hc : c < 2 ^ 32) (hb : b < 2 ^ 32) :
    crcByte c b < 2 ^ 32 :=
  crcRound_iter_lt 8 (Nat.xor_lt_two_pow hc hb)

lemma crc_foldl_lt {l : List Nat} (h : ∀ b ∈ l, b < 2 ^ 32) :
    ∀ c, c < 2 ^ 32 → l.foldl crcByte c < 2 ^ 32 := by
  induction l with
  | nil => intro c hc; simpa using hc
  | cons b rest ih =>
      intro c hc
      rw [List.foldl_cons]
      exact ih (fun x hx => h x (List.mem_cons_of_mem b hx))
        _ (crcByte_lt hc (h b (List.mem_cons_self b rest)))

lemma crc_lt {l : List Nat} (h : ∀ b ∈ l, b < 2 ^ 32) : crc l < 2 ^ 32 := by
  unfold crc
  exact Nat.xor_lt_two_pow (crc_foldl_lt h _ (by norm_num)) (by norm_num)

lemma u32be_lt {a b c d : Nat} (ha : a < 256) (hb : b < 256) (hc : c < 256)
    (hd : d < 256) : u32be a b c d < 2 ^ 32 := by
  unfold u32be; omega

lemma u32beOf_cons4 (a b c d : Nat) (l : List Nat) :
    u32beOf (a :: b :: c :: d :: l) = u32be a b c d := by
  simp [u32beOf, List.getD]

lemma u32beOf_u32beBytes_append (n : Nat) (hn : n < 2 ^ 32) (l : List Nat) :
    u32beOf (u32beBytes n ++ l) = n := by
  simp only [u32beBytes, List.cons_append, List.nil_append, u32beOf_cons4]
  unfold u32be
  omega

lemma u32beOf_u32beBytes (n : Nat) (hn : n < 2 ^ 32) :
    u32beOf (u32beBytes n) = n := by
  have := u32beOf_u32beBytes_append n hn []
  simpa using this

lemma getD_lt_of_isBytes {l : List Nat} (h : isBytes l = true) (i : Nat) :
    l.getD i 0 < 256 := by
  cases hg : l[i]? with
  | none => simp [List.getD, hg]
  | some b =>
      have hmem : b ∈ l := by
        have : l.get? i = some b := by simpa [List.get?_eq_getElem?] using hg
        exact List.get?_mem this
      simp only [isBytes, List.all_eq_true, decide_eq_true_eq] at h
      simpa [List.getD, hg] using h b hmem

lemma u32beOf_lt {l : List Nat} (h : isBytes l = true) : u32beOf l < 2 ^ 32 :=
  u32be_lt (getD_lt_of_isBytes h 0) (getD_lt_of_isBytes h 1)
    (getD_lt_of_isBytes h 2) (getD_lt_of_isBytes h 3)

lemma serialize_assoc (r : Chunk) :
    r.serialize =
      u32beBytes r.data_size ++
        (r.chunk_type.raw ++ (r.chunk_data ++ u32beBytes r.crc)) := by
  simp [Chunk.serialize, ChunkType.bytes, List.append_assoc]

lemma length_u32beBytes (n : Nat) : (u32beBytes n).length = 4 := by
  simp [u32beBytes]

lemma length_serialize (r : Chunk) (hlen4 : r.chunk_type.raw.length = 4) :
    r.serialize.length = 12 + r.chunk_data.length := by
  rw [serialize_assoc]
  simp [length_u32beBytes, hlen4]
  omega

/-- Any chunk whose fields satisfy the representation invariants that
both real construction paths establish reparses from its serialization
to itself. -/
lemma tryFrom_serialize (r : Chunk) (hlen4 : r.chunk_type.raw.length = 4)
    (halpha : ∀ b ∈ r.chunk_type.raw, isAsciiAlphabetic b = true)
    (hlen : r.chunk_data.length = r.data_size) (hds : r.data_size < 2 ^ 32)
    (hcrc : r.crc = crc (r.chunk_type.raw ++ r.chunk_data))
    (hc32 : r.crc < 2 ^ 32) :
    Chunk.tryFrom r.serialize = .ok r := by
  have hslen : r.serialize.length = 12 + r.data_size := by
    rw [length_serialize r hlen4, hlen]
  have h0 : u32beOf r.serialize = r.data_size := by
    rw [serialize_assoc]
    exact u32beOf_u32beBytes_append _ hds _
  have htag : (r.serialize.drop 4).take 4 = r.chunk_type.raw := by
    rw [serialize_assoc, List.drop_left' (length_u32beBytes _)]
    exact List.take_left' hlen4
  have hdrop8 : r.serialize.drop 8 = r.chunk_data ++ u32beBytes r.crc := by
    rw [serialize_assoc, ← List.append_assoc]
    exact List.drop_left' (by simp [length_u32beBytes, hlen4])
  have hdata : (r.serialize.drop 8).take r.data_size = r.chunk_data := by
    rw [hdrop8]
    exact List.take_left' hlen
  have hrest : r.serialize.drop (8 + r.data_size) = u32beBytes r.crc := by
    rw [serialize_assoc, ← List.append_assoc, ← List.append_assoc]
    refine List.drop_left' ?_
    simp [length_u32beBytes, hlen4, hlen]
    omega
  have hok : ChunkType.tryFrom ((r.serialize.drop 4).take 4) = .ok r.chunk_type := by
    rw [htag]
    exact chunkType_tryFrom_eq_ok halpha
  simp only [Chunk.tryFrom, h0, hok, hdata, hrest]
  rw [if_neg (by omega), if_neg (by omega), if_neg (by rw [length_u32beBytes]; omega)]
  rw [u32beOf_u32beBytes _ hc32, ChunkType.bytes, ← hcrc]
  rw [if_neg (by simp)]

/-- Inversion for a successful parse: the structural facts the code
checks on the way to `Ok`. -/
lemma tryFrom_ok_inv {data : List Nat} {r : Chunk}
    (h : Chunk.tryFrom data = .ok r) :
    data.length = 12 + u32beOf data ∧
    r.data_size = u32beOf data ∧
    r.chunk_type.raw = (data.drop 4).take 4 ∧
    r.chunk_data = (data.drop 8).take (u32beOf data) ∧
    r.crc = crc (r.chunk_type.raw ++ r.chunk_data) ∧
    ∀ b ∈ r.chunk_type.raw, isAsciiAlphabetic b = true := by
  unfold Chunk.tryFrom at h
  by_cases h8 : data.length < 8
  · simp [h8] at h
  · rw [if_neg h8] at h
    cases htf : ChunkType.tryFrom ((data.drop 4).take 4) with
    | error e => simp only [htf] at h; injection h
    | ok ct =>
        simp only [htf] at h
        by_cases hpan : data.length < 8 + u32beOf data
        · simp [hpan] at h
        · rw [if_neg hpan] at h
          by_cases hrl : (data.drop (8 + u32beOf data)).length ≠ 4
          · rw [if_pos hrl] at h; injection h
          · rw [if_neg hrl] at h
            push_neg at hrl
            by_cases hmm : u32beOf (data.drop (8 + u32beOf data)) ≠
                crc (ct.bytes ++ (data.drop 8).take (u32beOf data))
            · rw [if_pos hmm] at h; injection h
            · rw [if_neg hmm] at h
              push_neg at hmm
              injection h with h2
              subst h2
              obtain ⟨hraw, halpha⟩ := chunkType_tryFrom_ok_inv htf
              have hdl : data.length = 12 + u32beOf data := by
                rw [List.length_drop] at hrl
                omega
              refine ⟨hdl, rfl, hraw, rfl, ?_, ?_⟩
              · simpa [ChunkType.bytes] using hmm
              · rw [hraw]; exact halpha

lemma alpha_lt_256 {b : Nat} (h : isAsciiAlphabetic b = true) : b < 256 := by
  simp [isAsciiAlphabetic, isAsciiUppercase, isAsciiLowercase] at h
  omega

lemma mem_lt_of_isBytes {l : List Nat} (h : isBytes l = true) {b : Nat}
    (hb : b ∈ l) : b < 256 := by
  simp only [isBytes, List.all_eq_true, decide_eq_true_eq] at h
  exact h b hb

set_option maxRecDepth 100000 in
/-- The crc embedding agrees with the value the repository's tests pin
for the `crc` crate's CRC_32_ISO_HDLC on the fixture
"RuSt" followed by "This is where your secret message will be!". -/
lemma crc_test_vector :
    crc ([82, 117, 83, 116] ++
      [84, 104, 105, 115, 32, 105, 115, 32, 119, 104, 101, 114, 101, 32, 121,
       111, 117, 114, 32, 115, 101, 99, 114, 101, 116, 32, 109, 101, 115, 115,
       97, 103, 101, 32, 119, 105, 108, 108, 32, 98, 101, 33]) = 2882656334 := by
  rfl

lemma crc_rust_tag : crc [82, 117, 83, 116] = 3565422908 := by rfl

lemma chunkType_tryFrom_error_inv {raw : List Nat} {e : ChunkError}
    (h : ChunkType.tryFrom raw = .error e) : ∃ b p, e = .invalidTagByte b p := by
  unfold ChunkType.tryFrom at h
  cases hcb : checkBytes raw 0 with
  | none => simp only [hcb] at h; injection h
  | some p =>
      obtain ⟨b, i⟩ := p
      simp only [hcb] at h
      injection h with h2
      exact ⟨b, i, h2.symm⟩

lemma getD_set_ne {l : List Nat} {i j x : Nat} (h : i ≠ j) :
    (l.set i x).getD j 0 = l.getD j 0 := by
  simp [List.getD, List.getElem?_set_ne h]

lemma u32beOf_set {l : List Nat} {i x : Nat} (hi : 4 ≤ i) :
    u32beOf (l.set i x) = u32beOf l := by
  unfold u32beOf
  rw [getD_set_ne (show i ≠ 0 by omega), getD_set_ne (show i ≠ 1 by omega),
    getD_set_ne (show i ≠ 2 by omega), getD_set_ne (show i ≠ 3 by omega)]

/-- On a buffer whose total length is exactly the declared frame size,
the parse lands in one of the three non-panicking outcomes. -/
lemma tryFrom_shape {data : List Nat}
    (hdl : data.length = 12 + u32beOf data) :
    (∃ b p, Chunk.tryFrom data = .err (.invalidTagByte b p)) ∨
    (∃ e f, Chunk.tryFrom data = .err (.checksumMismatch e f)) ∨
    (∃ r2, Chunk.tryFrom data = .ok r2) := by
  cases htf : ChunkType.tryFrom ((data.drop 4).take 4) with
  | error e =>
      obtain ⟨b, p, rfl⟩ := chunkType_tryFrom_error_inv htf
      refine Or.inl ⟨b, p, ?_⟩
      simp only [Chunk.tryFrom, htf]
      rw [if_neg (by omega)]
  | ok ct =>
      simp only [Chunk.tryFrom, htf]
      rw [if_neg (by omega), if_neg (by omega)]
      have hrl : ¬(data.drop (8 + u32beOf data)).length ≠ 4 := by
        rw [List.length_drop]
        omega
      rw [if_neg hrl]
      by_cases hmm : u32beOf (data.drop (8 + u32beOf data)) ≠
          crc (ct.bytes ++ (data.drop 8).take (u32beOf data))
      · rw [if_pos hmm]
        exact Or.inr (Or.inl ⟨_, _, rfl⟩)
      · rw [if_neg hmm]
        exact Or.inr (Or.inr ⟨_, rfl⟩)

/-- A successfully parsed chunk satisfies every hypothesis of
`tryFrom_serialize`, provided the input was in the byte range. -/
lemma ok_invariants {data : List Nat} {r : Chunk} (hb : isBytes data = true)
    (h : Chunk.tryFrom data = .ok r) :
    r.chunk_type.raw.length = 4 ∧
    (∀ b ∈ r.chunk_type.raw, isAsciiAlphabetic b = true) ∧
    r.chunk_data.length = r.data_size ∧ r.data_size < 2 ^ 32 ∧
    r.crc = crc (r.chunk_type.raw ++ r.chunk_data) ∧ r.crc < 2 ^ 32 := by
  obtain ⟨hdl, hds, hraw, hcd, hcrc, halpha⟩ := tryFrom_ok_inv h
  have hlen4 : r.chunk_type.raw.length = 4 := by
    rw [hraw, List.length_take, List.length_drop]
    omega
  have hcdlen : r.chunk_data.length = r.data_size := by
    rw [hcd, hds, List.length_take, List.length_drop]
    omega
  have hds32 : r.data_size < 2 ^ 32 := by
    rw [hds]
    exact u32beOf_lt hb
  have hc32 : r.crc < 2 ^ 32 := by
    rw [hcrc]
    refine crc_lt ?_
    intro b hmem
    rcases List.mem_append.mp hmem with htg | hpl
    · exact lt_trans (alpha_lt_256 (halpha b htg)) (by norm_num)
    · rw [hcd] at hpl
      have : b ∈ data := List.mem_of_mem_drop (List.mem_of_mem_take hpl)
      exact lt_trans (mem_lt_of_isBytes hb this) (by norm_num)
  exact ⟨hlen4, halpha, hcdlen, hds32, hcrc, hc32⟩

/-- The payload slice `data[8..(8 + data_size)]` that `Chunk::try_from`
extracts. -/
def payloadOf (data : List Nat) : List Nat :=
  (data.drop 8).take (u32beOf data)

/-- The trailing checksum `u32::from_be_bytes(data[(8 + data_size)..])`
that `Chunk::try_from` reads. -/
def storedCrc (data : List Nat) : Nat :=
  u32beOf (data.drop (8 + u32beOf data))

/-- Whether a parse outcome is the checksum-mismatch error. -/
def isChecksumMismatchErr : ParseResult → Bool
  | .err (.checksumMismatch _ _) => true
  | _ => false

/-! The claims. -/

/-- C1: serialization is the byte-exact inverse of parsing.  For any
valid type tag and byte payload of length at most two to the 32 minus
one, `create` (that is, `Chunk::new`) yields a record whose
serialization is the declared length (4 bytes big-endian), the tag
bytes, the payload, and the crc (4 bytes big-endian), and parsing that
serialization succeeds with an equal record; likewise any record
obtained from a successful parse of a byte buffer reparses from its
serialization to an equal record. -/
theorem c1_round_trip :
    (∀ (t : ChunkType) (payload : List Nat),
        t.wf → isBytes payload = true → payload.length ≤ 2 ^ 32 - 1 →
        (Chunk.new t payload).serialize =
          u32beBytes payload.length ++ t.bytes ++ payload ++
            u32beBytes (crc (t.bytes ++ payload)) ∧
        Chunk.tryFrom (Chunk.new t payload).serialize = .ok (Chunk.new t payload)) ∧
    (∀ (data : List Nat) (r : Chunk), isBytes data = true →
        Chunk.tryFrom data = .ok r → Chunk.tryFrom r.serialize = .ok r) := by
  constructor
  · intro t payload hwf hb hlen
    obtain ⟨hlen4, halpha⟩ := hwf
    have hmod : payload.length % 2 ^ 32 = payload.length :=
      Nat.mod_eq_of_lt (by omega)
    have hc32 : crc (t.bytes ++ payload) < 2 ^ 32 := by
      refine crc_lt ?_
      intro b hmem
      rcases List.mem_append.mp hmem with htg | hpl
      · exact lt_trans (alpha_lt_256 (halpha b htg)) (by norm_num)
      · exact lt_trans (mem_lt_of_isBytes hb hpl) (by norm_num)
    constructor
    · have hser : (Chunk.new t payload).serialize =
          u32beBytes (payload.length % 2 ^ 32) ++ t.bytes ++ payload ++
            u32beBytes (crc (t.bytes ++ payload)) := rfl
      rw [hser, hmod]
    · refine tryFrom_serialize (Chunk.new t payload) hlen4 halpha ?_ ?_ rfl hc32
      · exact hmod.symm
      · exact Nat.mod_lt _ (by norm_num)
  · intro data r hb hok
    obtain ⟨hlen4, halpha, hcdlen, hds32, hcrc, hc32⟩ := ok_invariants hb hok
    exact tryFrom_serialize r hlen4 halpha hcdlen hds32 hcrc hc32

/-- C1 witness: the round trip evaluated at the tag "RuSt" and the
payload 1, 2, 3. -/
theorem c1_round_trip_witness :
    Chunk.tryFrom (Chunk.new ⟨[82, 117, 83, 116]⟩ [1, 2, 3]).serialize =
      .ok (Chunk.new ⟨[82, 117, 83, 116]⟩ [1, 2, 3]) :=
  (c1_round_trip.1 ⟨[82, 117, 83, 116]⟩ [1, 2, 3] (by decide) (by decide)
    (by norm_num)).2

/-- C2: the claim says parsing is total and never crashes on any
buffer, in particular on lengths between 8 and 11.  The code violates
this: on the 8-byte buffer holding a zero declared length and the valid
tag "RuSt", `data[(8 + data_size)..].try_into().unwrap()` is an
`unwrap` of a failed conversion of an empty slice to four bytes, a
panic. -/
theorem c2_parse_panics_on_short_buffer :
    Chunk.tryFrom [0, 0, 0, 0, 82, 117, 83, 116] = .panic := by rfl

/-- C3: the claim says every buffer shorter than 12 bytes fails with
the too-short error, and a buffer with fewer than the declared
8 + L + 4 bytes fails with the too-short error.  The code violates
both: an 11-byte buffer with a valid tag and declared length 0 panics
on the trailing-checksum `unwrap`, and a 12-byte buffer declaring
length 5 panics slicing `data[8..13]`. -/
theorem c3_short_buffers_panic_instead_of_tooShort :
    Chunk.tryFrom [0, 0, 0, 0, 82, 117, 83, 116, 0, 0, 0] = .panic ∧
    Chunk.tryFrom [0, 0, 0, 5, 82, 117, 83, 116, 9, 9, 9, 9] = .panic :=
  ⟨rfl, rfl⟩

/-- C4 counterexample: a valid 12-byte serialized record with tag
"RuSt" and empty payload parses successfully, but flipping bit 6 of the
first tag byte (82 becomes 18) makes parse fail with the
invalid-tag-byte error, not the checksum-mismatch error the claim
requires for every tag-region bit flip. -/
theorem c4_counterexample :
    Chunk.tryFrom ([0, 0, 0, 0, 82, 117, 83, 116] ++ u32beBytes 3565422908) =
      .ok ⟨0, ⟨[82, 117, 83, 116]⟩, [], 3565422908⟩ ∧
    ([0, 0, 0, 0, 82, 117, 83, 116] ++ u32beBytes 3565422908).set 4
        (Nat.xor 82 (2 ^ 6)) =
      [0, 0, 0, 0, 18, 117, 83, 116] ++ u32beBytes 3565422908 ∧
    Chunk.tryFrom ([0, 0, 0, 0, 18, 117, 83, 116] ++ u32beBytes 3565422908) =
      .err (.invalidTagByte 18 0) ∧
    isChecksumMismatchErr
      (Chunk.tryFrom ([0, 0, 0, 0, 18, 117, 83, 116] ++ u32beBytes 3565422908)) =
      false :=
  ⟨rfl, rfl, rfl, rfl⟩

/-- C4 amended: for any valid serialized record, flipping any single
bit at or after the type-tag region (so in the tag, payload, or
trailing checksum) makes parse fail with the checksum-mismatch error,
or with the invalid-tag-byte error when the flip drives a tag byte out
of the ASCII letters, or (in the colliding case) succeed; in all cases
parse does not crash. -/
theorem c4_tamper_detection (data : List Nat) (r : Chunk) (i k : Nat)
    (hok : Chunk.tryFrom data = .ok r) (hi : 4 ≤ i) (hil : i < data.length)
    (hk : k < 8) :
    Chunk.tryFrom (data.set i (Nat.xor (data.getD i 0) (2 ^ k))) ≠ .panic ∧
    ((∃ b p, Chunk.tryFrom (data.set i (Nat.xor (data.getD i 0) (2 ^ k))) =
        .err (.invalidTagByte b p)) ∨
     (∃ e f, Chunk.tryFrom (data.set i (Nat.xor (data.getD i 0) (2 ^ k))) =
        .err (.checksumMismatch e f)) ∨
     (∃ r2, Chunk.tryFrom (data.set i (Nat.xor (data.getD i 0) (2 ^ k))) =
        .ok r2)) := by
  have hdl : data.length = 12 + u32beOf data := (tryFrom_ok_inv hok).1
  have hdl2 : (data.set i (Nat.xor (data.getD i 0) (2 ^ k))).length =
      12 + u32beOf (data.set i (Nat.xor (data.getD i 0) (2 ^ k))) := by
    rw [List.length_set, u32beOf_set hi, hdl]
  have hshape := tryFrom_shape hdl2
  refine ⟨?_, hshape⟩
  rcases hshape with ⟨b, p, h⟩ | ⟨e, f, h⟩ | ⟨r2, h⟩ <;> rw [h] <;> intro hcon <;>
    injection hcon

/-- C4 witness: the amended theorem evaluated at the valid 12-byte
record with tag "RuSt", flipping bit 6 of the byte at offset 4. -/
theorem c4_tamper_detection_witness :
    Chunk.tryFrom (([0, 0, 0, 0, 82, 117, 83, 116] ++
        u32beBytes 3565422908).set 4
        (Nat.xor (([0, 0, 0, 0, 82, 117, 83, 116] ++
          u32beBytes 3565422908).getD 4 0) (2 ^ 6))) ≠ .panic :=
  (c4_tamper_detection ([0, 0, 0, 0, 82, 117, 83, 116] ++ u32beBytes 3565422908)
    ⟨0, ⟨[82, 117, 83, 116]⟩, [], 3565422908⟩ 4 6 (by rfl) (by decide) (by decide)
    (by decide)).1

/-- C5: on a buffer of exactly 8 + L + 4 bytes whose declared length is
L and whose tag parses, the parse fails with the checksum-mismatch
error carrying the computed value as expected and the stored trailing
big-endian u32 as found exactly when the two differ; otherwise it
returns the record built from the parsed length, tag, payload, and the
found checksum. -/
theorem c5_checksum_decision (data : List Nat) (t : ChunkType)
    (hlen : data.length = 8 + u32beOf data + 4)
    (htag : ChunkType.tryFrom ((data.drop 4).take 4) = .ok t) :
    (storedCrc data ≠ crc (t.bytes ++ payloadOf data) →
      Chunk.tryFrom data =
        .err (.checksumMismatch (crc (t.bytes ++ payloadOf data))
          (storedCrc data))) ∧
    (storedCrc data = crc (t.bytes ++ payloadOf data) →
      Chunk.tryFrom data =
        .ok ⟨u32beOf data, t, payloadOf data, storedCrc data⟩) := by
  simp only [payloadOf, storedCrc]
  simp only [Chunk.tryFrom, htag]
  rw [if_neg (by omega), if_neg (by omega)]
  have hrl : ¬(data.drop (8 + u32beOf data)).length ≠ 4 := by
    rw [List.length_drop]
    omega
  rw [if_neg hrl]
  constructor
  · intro hne
    rw [if_pos hne]
  · intro heq
    rw [if_neg (by simp [heq])]

/-- C5 witness: the decision evaluated on the valid 12-byte "RuSt"
record, whose stored checksum equals the computed one. -/
theorem c5_checksum_decision_witness :
    Chunk.tryFrom ([0, 0, 0, 0, 82, 117, 83, 116] ++ u32beBytes 3565422908) =
      .ok ⟨u32beOf ([0, 0, 0, 0, 82, 117, 83, 116] ++ u32beBytes 3565422908),
        ⟨[82, 117, 83, 116]⟩,
        payloadOf ([0, 0, 0, 0, 82, 117, 83, 116] ++ u32beBytes 3565422908),
        storedCrc ([0, 0, 0, 0, 82, 117, 83, 116] ++ u32beBytes 3565422908)⟩ :=
  (c5_checksum_decision ([0, 0, 0, 0, 82, 117, 83, 116] ++ u32beBytes 3565422908)
    ⟨[82, 117, 83, 116]⟩ (by decide) (by rfl)).2 (by rfl)

/-- C6: every record satisfies the invariant that its stored crc is the
CRC-32 ISO-HDLC of the tag bytes followed by the payload bytes, on both
construction paths: direct construction always computes it, and a
record produced by a successful parse satisfies it because the parse
rejects any buffer whose stored checksum differs from the computed one.
No other operation writes a record, so the invariant is never
invalidated. -/
theorem c6_crc_invariant :
    (∀ (t : ChunkType) (payload : List Nat),
        (Chunk.new t payload).crc =
          crc ((Chunk.new t payload).chunk_type.bytes ++
            (Chunk.new t payload).chunk_data)) ∧
    (∀ (data : List Nat) (r : Chunk), Chunk.tryFrom data = .ok r →
        r.crc = crc (r.chunk_type.bytes ++ r.chunk_data)) := by
  constructor
  · intro t payload
    rfl
  · intro data r h
    have := (tryFrom_ok_inv h).2.2.2.2.1
    simpa [ChunkType.bytes] using this

/-- C6 witness: the parse path of the invariant evaluated on the valid
12-byte "RuSt" record. -/
theorem c6_crc_invariant_witness :
    (⟨0, ⟨[82, 117, 83, 116]⟩, [], 3565422908⟩ : Chunk).crc =
      crc ((⟨0, ⟨[82, 117, 83, 116]⟩, [], 3565422908⟩ : Chunk).chunk_type.bytes ++
        (⟨0, ⟨[82, 117, 83, 116]⟩, [], 3565422908⟩ : Chunk).chunk_data) :=
  c6_crc_invariant.2 ([0, 0, 0, 0, 82, 117, 83, 116] ++ u32beBytes 3565422908)
    ⟨0, ⟨[82, 117, 83, 116]⟩, [], 3565422908⟩ (by rfl)

lemma new_data_size (t : ChunkType) (l : List Nat) :
    (Chunk.new t l).data_size = l.length % 2 ^ 32 := rfl

/-- C7 counterexample: the claim says construction fails as
payload-too-large rather than producing a record when the payload
length exceeds the 32-bit range.  The code never fails: at the payload
of two to the 32 zero bytes it produces a record whose declared length
has been silently truncated to 0. -/
theorem c7_counterexample :
    (Chunk.new ⟨[82, 117, 83, 116]⟩ (List.replicate (2 ^ 32) 0)).data_size = 0 ∧
    (List.replicate (2 ^ 32) 0).length = 2 ^ 32 := by
  have h2 : (List.replicate (2 ^ 32) (0 : Nat)).length = 2 ^ 32 :=
    List.length_replicate _ _
  refine ⟨?_, h2⟩
  rw [new_data_size, h2]
  exact Nat.mod_self _

/-- C7 amended: `create` always succeeds, for every payload: the tag
and payload are stored verbatim and the crc is computed over tag bytes
followed by payload; the declared length is the payload byte count
reduced modulo two to the 32, which equals the byte count whenever the
payload length fits in 32 bits (there is no payload-too-large
failure). -/
theorem c7_create_total (t : ChunkType) (payload : List Nat) :
    (Chunk.new t payload).chunk_type = t ∧
    (Chunk.new t payload).chunk_data = payload ∧
    (Chunk.new t payload).crc = crc (t.bytes ++ payload) ∧
    (Chunk.new t payload).data_size = payload.length % 2 ^ 32 ∧
    (payload.length < 2 ^ 32 →
      (Chunk.new t payload).length = payload.length) := by
  refine ⟨rfl, rfl, rfl, rfl, ?_⟩
  intro h
  have hm : payload.length % 2 ^ 32 = payload.length := Nat.mod_eq_of_lt h
  exact hm

/-- C7 witness: the amended theorem evaluated at tag "RuSt" and the
one-byte payload 7. -/
theorem c7_create_total_witness :
    (Chunk.new ⟨[82, 117, 83, 116]⟩ [7]).length = 1 :=
  (c7_create_total ⟨[82, 117, 83, 116]⟩ [7]).2.2.2.2 (by norm_num)

/-- C8: tag construction validation.  On four bytes, `tryFrom` fails
with the invalid-tag-byte error reporting the exact offending byte and
its position for the first byte, scanning positions 0 to 3 in order,
that is not an ASCII letter, and otherwise succeeds storing the bytes
verbatim; `fromStr` fails with the wrong-tag-length error reporting the
actual length whenever the input length is not 4, and otherwise
delegates to `tryFrom`. -/
theorem c8_tag_validation :
    (∀ (raw : List Nat) (i : Nat), raw.length = 4 →
      raw.findIdx? (fun b => !(isAsciiAlphabetic b)) = some i →
      ChunkType.tryFrom raw = .error (.invalidTagByte (raw.getD i 0) i)) ∧
    (∀ raw : List Nat, raw.length = 4 →
      raw.findIdx? (fun b => !(isAsciiAlphabetic b)) = none →
      ChunkType.tryFrom raw = .ok ⟨raw⟩) ∧
    (∀ s : List Nat,
      (s.length ≠ 4 → ChunkType.fromStr s = .error (.wrongTagLength s.length)) ∧
      (s.length = 4 → ChunkType.fromStr s = ChunkType.tryFrom s)) := by
  refine ⟨?_, ?_, ?_⟩
  · intro raw i hlen hfi
    rcases raw with _ | ⟨a, raw⟩; · simp at hlen
    rcases raw with _ | ⟨b, raw⟩; · simp at hlen
    rcases raw with _ | ⟨c, raw⟩; · simp at hlen
    rcases raw with _ | ⟨d, raw⟩; · simp at hlen
    rcases raw with _ | ⟨e, raw⟩
    swap; · simp at hlen
    cases ha : isAsciiAlphabetic a <;> cases hb : isAsciiAlphabetic b <;>
      cases hc : isAsciiAlphabetic c <;> cases hd : isAsciiAlphabetic d <;>
      simp [List.findIdx?_cons, ha, hb, hc, hd] at hfi <;>
      simp [← hfi, ChunkType.tryFrom, checkBytes, ha, hb, hc, hd,
        isAscii_of_alpha, List.getD]
  · intro raw hlen hfi
    rcases raw with _ | ⟨a, raw⟩; · rfl
    rcases raw with _ | ⟨b, raw⟩; · simp at hlen
    rcases raw with _ | ⟨c, raw⟩; · simp at hlen
    rcases raw with _ | ⟨d, raw⟩; · simp at hlen
    rcases raw with _ | ⟨e, raw⟩
    swap; · simp at hlen
    cases ha : isAsciiAlphabetic a <;> cases hb : isAsciiAlphabetic b <;>
      cases hc : isAsciiAlphabetic c <;> cases hd : isAsciiAlphabetic d <;>
      simp [List.findIdx?_cons, ha, hb, hc, hd] at hfi <;>
      simp [ChunkType.tryFrom, checkBytes, ha, hb, hc, hd, isAscii_of_alpha]
  · intro s
    constructor
    · intro h
      simp [ChunkType.fromStr, h]
    · intro h
      have htake : s.take 4 = s := by
        rw [← h]
        exact List.take_length s
      simp [ChunkType.fromStr, h, htake]

/-- C8 witness: the three validation behaviors evaluated at concrete
tags: "Ru1t" has its first invalid byte 49 at position 2, "RuSt" is
accepted verbatim, and a 3-byte string is rejected with its length. -/
theorem c8_tag_validation_witness :
    ChunkType.tryFrom [82, 117, 49, 116] = .error (.invalidTagByte 49 2) ∧
    ChunkType.tryFrom [82, 117, 83, 116] = .ok ⟨[82, 117, 83, 116]⟩ ∧
    ChunkType.fromStr [82, 117, 83] = .error (.wrongTagLength 3) ∧
    ChunkType.fromStr [82, 117, 83, 116] = ChunkType.tryFrom [82, 117, 83, 116] :=
  ⟨c8_tag_validation.1 [82, 117, 49, 116] 2 (by decide) (by decide),
   c8_tag_validation.2.1 [82, 117, 83, 116] (by decide) (by decide),
   (c8_tag_validation.2.2 [82, 117, 83]).1 (by decide),
   (c8_tag_validation.2.2 [82, 117, 83, 116]).2 (by decide)⟩

/-- C9: the four semantic flags are case predicates on the stored
bytes, one per position, and on the tag bytes 82, 117, 83, 116
("RuSt") they evaluate to critical, not public, reserved-valid, and
safe-to-copy. -/
theorem c9_flag_derivation :
    (∀ a b c d : Nat,
      (ChunkType.mk [a, b, c, d]).is_critical = isAsciiUppercase a ∧
      (ChunkType.mk [a, b, c, d]).is_public = isAsciiUppercase b ∧
      (ChunkType.mk [a, b, c, d]).is_reserved_bit_valid = isAsciiUppercase c ∧
      (ChunkType.mk [a, b, c, d]).is_safe_to_copy = isAsciiLowercase d) ∧
    ((ChunkType.mk [82, 117, 83, 116]).is_critical = true ∧
     (ChunkType.mk [82, 117, 83, 116]).is_public = false ∧
     (ChunkType.mk [82, 117, 83, 116]).is_reserved_bit_valid = true ∧
     (ChunkType.mk [82, 117, 83, 116]).is_safe_to_copy = true) := by
  constructor
  · intro a b c d
    exact ⟨rfl, rfl, rfl, rfl⟩
  · decide

/-- C10: parsing never accepts trailing extra bytes: whenever the
buffer is strictly longer than 8 + L + 4, with L the big-endian
declared length in its first 4 bytes, `Chunk::try_from` does not return
a record, because the trailing-checksum extraction demands exactly 4
remaining bytes. -/
theorem c10_no_trailing_bytes (data : List Nat) (r : Chunk)
    (h : 8 + u32beOf data + 4 < data.length) :
    Chunk.tryFrom data ≠ .ok r := by
  intro hok
  have hdl := (tryFrom_ok_inv hok).1
  omega

/-- C10 witness: a 13-byte buffer declaring length 0 is never parsed
into the record that its first 12 bytes would produce. -/
theorem c10_no_trailing_bytes_witness :
    Chunk.tryFrom ([0, 0, 0, 0, 82, 117, 83, 116] ++
        u32beBytes 3565422908 ++ [7]) ≠
      .ok ⟨0, ⟨[82, 117, 83, 116]⟩, [], 3565422908⟩ :=
  c10_no_trailing_bytes _ _ (by decide)

end Pngme
